import Mathlib

/-!
Shallow embedding of the topic → keyword → search → LLM-scored ranking
pipeline of `스크립트/step3_integrated_system.py` (class
`BookRecommendationSystem`).

External effects (Gemini calls, Naver HTTP requests) are represented by
injected values: a model response is an `Except String _` (an exception
during the call or JSON parsing is the `error` case), and the Naver book
service is a function from a keyword to a `QueryOutcome`.  All pure
computation (normalization, deduplication, score attachment, sorting,
truncation, result assembly) is translated directly from the Python source.
-/

namespace HakzzongBook

/-! ### Raw search hits and normalized book candidates -/

/-- One raw item of the Naver book-search JSON response (`data['items']`).
Absent fields are modelled as the empty string, matching `book.get(k, '')`
and the falsiness check `if book.get('isbn')`. -/
structure RawHit where
  title : String
  author : String
  publisher : String
  pubdate : String
  isbn : String
  description : String
deriving DecidableEq

/-- A normalized book candidate, as appended to `all_books` in
`search_books_naver`. -/
structure Book where
  title : String
  author : String
  publisher : String
  pubdate : String
  isbn : String
  description : String
  search_keyword : String
deriving DecidableEq

/-! ### Tag stripping: `re.sub(r'<[^>]+>', '', s)` -/

/-- Splits a character list at the first `>`:
`splitAtGt l = some (a, b)` means `l = a ++ '>' :: b` with no `>` in `a`. -/
def splitAtGt : List Char → Option (List Char × List Char)
  | [] => none
  | c :: rest =>
    if c = '>' then some ([], rest)
    else (splitAtGt rest).map (fun p => (c :: p.1, p.2))

theorem splitAtGt_snd_length :
    ∀ (l a b : List Char), splitAtGt l = some (a, b) → b.length < l.length := by
  intro l
  induction l with
  | nil => intro a b hab; simp [splitAtGt] at hab
  | cons c rest ih =>
    intro a b hab
    by_cases hc : c = '>'
    · simp only [splitAtGt, if_pos hc, Option.some.injEq, Prod.mk.injEq] at hab
      obtain ⟨-, hb⟩ := hab
      subst hb
      exact Nat.lt_succ_self _
    · simp only [splitAtGt, if_neg hc] at hab
      match hrest : splitAtGt rest with
      | none => rw [hrest] at hab; simp at hab
      | some p =>
        rw [hrest] at hab
        simp only [Option.map_some', Option.some.injEq, Prod.mk.injEq] at hab
        have hlt := ih p.1 p.2 (by rw [hrest])
        have hb : b = p.2 := hab.2.symm
        subst hb
        simp
        omega

/-- Removes every occurrence of the pattern `<[^>]+>` from a character list,
scanning left to right exactly as `re.sub` does: at a `<`, if a later `>`
exists with at least one character in between, the whole span is dropped and
scanning resumes after the `>`; otherwise the `<` is kept. -/
def stripTagsAux : List Char → List Char
  | [] => []
  | c :: rest =>
    if c = '<' then
      match hsp : splitAtGt rest with
      | some (inside, tail) =>
        if inside.isEmpty then c :: stripTagsAux rest
        else stripTagsAux tail
      | none => c :: stripTagsAux rest
    else c :: stripTagsAux rest
termination_by l => l.length
decreasing_by
  · simp
  · have := splitAtGt_snd_length rest inside tail hsp
    simp
    omega
  · simp
  · simp

/-- Models `re.sub(r'<[^>]+>', '', s)`. -/
def stripTags (s : String) : String := String.mk (stripTagsAux s.data)

/-! ### Whitespace split: Python `str.split()` -/

/-- Accumulator-based whitespace splitter; `acc` holds the current token
reversed. -/
def pySplitAux : List Char → List Char → List String
  | [], acc => if acc.isEmpty then [] else [String.mk acc.reverse]
  | c :: rest, acc =>
    if c.isWhitespace then
      if acc.isEmpty then pySplitAux rest []
      else String.mk acc.reverse :: pySplitAux rest []
    else pySplitAux rest (c :: acc)

/-- Models Python `s.split()` with no separator argument: splits on runs of
whitespace and never yields empty tokens. -/
def pySplit (s : String) : List String := pySplitAux s.data []

/-! ### Book Search Client (`search_books_naver`) -/

/-- Outcome of one keyword query against the Naver API.  `failure` is any
exception raised by `requests.get` or `response.json()`; `response` carries
the HTTP status code and the parsed `items` list. -/
inductive QueryOutcome where
  | failure : QueryOutcome
  | response : Nat → List RawHit → QueryOutcome
deriving DecidableEq

/-- Builds the normalized candidate record appended to `all_books`, given the
canonical identifier `code` extracted from the raw `isbn` field. -/
def mkBook (kw : String) (hit : RawHit) (code : String) : Book :=
  { title := stripTags hit.title
    author := stripTags hit.author
    publisher := hit.publisher
    pubdate := hit.pubdate
    isbn := code
    description := stripTags hit.description
    search_keyword := kw }

/-- The `for book in books:` loop of `search_books_naver`: a hit with a falsy
`isbn` field is skipped; otherwise `book['isbn'].split()[-1]` is the
identifier.  When the raw field is non-empty but all whitespace, `split()`
yields `[]` and `[-1]` raises `IndexError`, which aborts the remaining items
of this keyword (earlier items stay appended). -/
def normalizeHits (kw : String) : List RawHit → List Book
  | [] => []
  | hit :: rest =>
    if hit.isbn = "" then normalizeHits kw rest
    else
      match (pySplit hit.isbn).getLast? with
      | none => []
      | some code => mkBook kw hit code :: normalizeHits kw rest

/-- Candidates contributed by one keyword: the `try` body appends nothing on
a request failure (`except ... continue`) or on a non-200 status. -/
def keywordBooks (service : String → QueryOutcome) (kw : String) : List Book :=
  match service kw with
  | QueryOutcome.failure => []
  | QueryOutcome.response status items =>
    if status = 200 then normalizeHits kw items else []

/-- The `all_books` accumulation: only `keywords[:3]` are queried, each one
independently. -/
def searchRawBooks (service : String → QueryOutcome) (keywords : List String) :
    List Book :=
  (keywords.take 3).flatMap (fun kw => keywordBooks service kw)

/-- The ISBN-keyed deduplication loop, with the insertion-ordered dict
`unique_books` modelled as the accumulator list: a book is appended when its
isbn is truthy and not yet a key. -/
def dedupAux : List Book → List Book → List Book
  | acc, [] => acc
  | acc, b :: rest =>
    if b.isbn ≠ "" ∧ (∀ x ∈ acc, x.isbn ≠ b.isbn) then dedupAux (acc ++ [b]) rest
    else dedupAux acc rest

/-- Models the ISBN deduplication and `list(unique_books.values())`. -/
def dedupByIsbn (books : List Book) : List Book := dedupAux [] books

/-- Models `search_books_naver(keywords, max_per_keyword)`; the per-keyword
request/parse behaviour is injected through `service`. -/
def search_books_naver (service : String → QueryOutcome) (keywords : List String) :
    List Book :=
  dedupByIsbn (searchRawBooks service keywords)

/-! ### Book Verifier / Ranker (`verify_books_with_llm`) -/

/-- One entry of the parsed `book_scores` array.  Every field is optional,
matching the `score_info.get(k, default)` accesses. -/
structure ScoreInfo where
  book_number : Option Int
  relevance_score : Option Int
  appropriateness_score : Option Int
  reliability_score : Option Int
  recency_score : Option Int
  accessibility_score : Option Int
  total_score : Option Int
  recommendation_reason : Option String
deriving DecidableEq

/-- Models `score_info.get('book_number', 1)`. -/
def ScoreInfo.bookNumberD (s : ScoreInfo) : Int := s.book_number.getD 1

/-- Models `score_info.get('total_score', 0)`. -/
def ScoreInfo.totalScoreD (s : ScoreInfo) : Int := s.total_score.getD 0

/-- Models `score_info.get('relevance_score', 0)`. -/
def ScoreInfo.relevanceD (s : ScoreInfo) : Int := s.relevance_score.getD 0

/-- Models `score_info.get('appropriateness_score', 0)`. -/
def ScoreInfo.appropriatenessD (s : ScoreInfo) : Int := s.appropriateness_score.getD 0

/-- Models `score_info.get('reliability_score', 0)`. -/
def ScoreInfo.reliabilityD (s : ScoreInfo) : Int := s.reliability_score.getD 0

/-- Models `score_info.get('recency_score', 0)`. -/
def ScoreInfo.recencyD (s : ScoreInfo) : Int := s.recency_score.getD 0

/-- Models `score_info.get('accessibility_score', 0)`. -/
def ScoreInfo.accessibilityD (s : ScoreInfo) : Int := s.accessibility_score.getD 0

/-- Models `score_info.get('recommendation_reason', '추천 이유를 생성할 수 없습니다.')`. -/
def ScoreInfo.reasonD (s : ScoreInfo) : String :=
  s.recommendation_reason.getD "추천 이유를 생성할 수 없습니다."

/-- A candidate enriched with the llm score fields, i.e. the result of
`book = books_to_verify[book_num].copy(); book.update({...})`. -/
structure VerifiedBook where
  title : String
  author : String
  publisher : String
  pubdate : String
  isbn : String
  description : String
  search_keyword : String
  llm_total_score : Int
  llm_relevance : Int
  llm_appropriateness : Int
  llm_reliability : Int
  llm_recency : Int
  llm_accessibility : Int
  recommendation_reason : String
deriving DecidableEq

/-- The copy-and-update of one candidate with one score entry. -/
def mkVerified (b : Book) (s : ScoreInfo) : VerifiedBook :=
  { title := b.title
    author := b.author
    publisher := b.publisher
    pubdate := b.pubdate
    isbn := b.isbn
    description := b.description
    search_keyword := b.search_keyword
    llm_total_score := s.totalScoreD
    llm_relevance := s.relevanceD
    llm_appropriateness := s.appropriatenessD
    llm_reliability := s.reliabilityD
    llm_recency := s.recencyD
    llm_accessibility := s.accessibilityD
    recommendation_reason := s.reasonD }

/-- The ordinal-validity test `0 <= book_num < len(books_to_verify)` with
`book_num = score_info.get('book_number', 1) - 1`. -/
def ordinalValid (btv : List Book) (s : ScoreInfo) : Prop :=
  0 ≤ s.bookNumberD - 1 ∧ (s.bookNumberD - 1).toNat < btv.length

instance (btv : List Book) (s : ScoreInfo) : Decidable (ordinalValid btv s) := by
  unfold ordinalValid; infer_instance

/-- The `for score_info in book_scores:` loop building `verified_books`:
entries with an ordinal outside the submitted list are skipped, every other
entry yields one enriched record, in response order. -/
def attachScores (btv : List Book) (scores : List ScoreInfo) : List VerifiedBook :=
  scores.filterMap (fun s =>
    if 0 ≤ s.bookNumberD - 1 then
      (btv[(s.bookNumberD - 1).toNat]?).map (fun b => mkVerified b s)
    else none)

/-- The comparison underlying `sorted(..., key=lambda x: x.get('llm_total_score', 0), reverse=True)`:
`a` may precede `b` iff `b`'s total is at most `a`'s. -/
def scoreLE (a b : VerifiedBook) : Bool :=
  decide (b.llm_total_score ≤ a.llm_total_score)

/-- Models `verify_books_with_llm(books, topic, topic_info)`.  The prompt is
sent to the model only when `books` is non-empty; the model call and JSON
parsing are injected as `response` (`error` = any exception in the `try`
block, yielding `[]`). Python `sorted` with `reverse=True` is a stable sort,
modelled by `List.mergeSort` with `scoreLE`. -/
def verify_books_with_llm (books : List Book)
    (response : Except String (List ScoreInfo)) : List VerifiedBook :=
  if books.isEmpty then []
  else
    match response with
    | Except.error _ => []
    | Except.ok scores =>
      let books_to_verify := books.take 15
      let verified_books := attachScores books_to_verify scores
      verified_books.mergeSort scoreLE

/-! ### Topic Analyzer (`extract_keywords_with_gemini`) -/

/-- The parsed JSON analysis produced by the model for one topic. -/
structure TopicInfo where
  keywords : List String
  academic_field : String
  difficulty_level : String
  additional_keywords : List String
  book_types : List String
  cautions : String
deriving DecidableEq

/-- The sentinel analysis built in the `except` branch of
`extract_keywords_with_gemini`. -/
def sentinelTopicInfo : TopicInfo :=
  { keywords := []
    academic_field := "미분류"
    difficulty_level := "중"
    additional_keywords := []
    book_types := []
    cautions := "API 오류로 인한 처리 실패" }

/-- Models `extract_keywords_with_gemini(topic)`: the model call plus JSON
parsing is injected as `response`; any exception yields `([], sentinel)`,
success yields `(result.get('keywords', []), result)`. -/
def extract_keywords_with_gemini (response : Except String TopicInfo) :
    List String × TopicInfo :=
  match response with
  | Except.ok info => (info.keywords, info)
  | Except.error _ => ([], sentinelTopicInfo)

/-! ### Topic Pipeline (`process_single_topic`) -/

/-- The nested `score_details` dict of a recommended-book record. -/
structure ScoreDetails where
  relevance : Int
  appropriateness : Int
  reliability : Int
  recency : Int
  accessibility : Int
deriving DecidableEq

/-- One entry of `result['recommended_books']`. -/
structure RecommendedBook where
  rank : Nat
  title : String
  author : String
  publisher : String
  publication_date : String
  isbn : String
  description : String
  total_score : Int
  score_details : ScoreDetails
  recommendation_reason : String
  search_keyword : String
deriving DecidableEq

/-- The `topic_analysis` field of a result: the parsed analysis dict on the
normal path, or the `{'error': str(e)}` dict built at the `except` boundary. -/
inductive TopicAnalysis where
  | info : TopicInfo → TopicAnalysis
  | failed : String → TopicAnalysis
deriving DecidableEq

/-- The per-topic result dict assembled by `process_single_topic`. -/
structure TopicResult where
  topic : String
  keywords : List String
  topic_analysis : TopicAnalysis
  total_books_found : Nat
  verified_books_count : Nat
  recommended_books : List RecommendedBook
deriving DecidableEq

/-- One recommended-book record, built from a verified book and its 1-based
rank, including the 200-character description truncation. -/
def mkRecommendedEntry (rank : Nat) (b : VerifiedBook) : RecommendedBook :=
  { rank := rank
    title := b.title
    author := b.author
    publisher := b.publisher
    publication_date := b.pubdate
    isbn := b.isbn
    description :=
      if b.description.length > 200 then b.description.take 200 ++ "..."
      else b.description
    total_score := b.llm_total_score
    score_details :=
      { relevance := b.llm_relevance
        appropriateness := b.llm_appropriateness
        reliability := b.llm_reliability
        recency := b.llm_recency
        accessibility := b.llm_accessibility }
    recommendation_reason := b.recommendation_reason
    search_keyword := b.search_keyword }

/-- The `for i, book in enumerate(top_books, 1):` loop. -/
def mkRecommendedBooks : Nat → List VerifiedBook → List RecommendedBook
  | _, [] => []
  | i, b :: rest => mkRecommendedEntry i b :: mkRecommendedBooks (i + 1) rest

/-- The external world of one `process_single_topic` call: the Gemini
analysis response, the Naver service, and the Gemini verification response.
An `Except.error` models any exception raised inside the corresponding
`try` block. -/
structure Env where
  analysisResponse : Except String TopicInfo
  naverService : String → QueryOutcome
  verifyResponse : Except String (List ScoreInfo)

/-- The body of the `try` block of `process_single_topic`: analyze, search,
verify, keep the top 2, and assemble the result record. -/
def processBody (topic : String) (env : Env) : TopicResult :=
  let ka := extract_keywords_with_gemini env.analysisResponse
  let keywords := ka.1
  let topic_info := ka.2
  let books := search_books_naver env.naverService keywords
  let verified_books := verify_books_with_llm books env.verifyResponse
  let top_books := verified_books.take 2
  { topic := topic
    keywords := keywords
    topic_analysis := TopicAnalysis.info topic_info
    total_books_found := books.length
    verified_books_count := verified_books.length
    recommended_books := mkRecommendedBooks 1 top_books }

/-- The result dict built in the `except` branch of `process_single_topic`. -/
def errorTopicResult (topic msg : String) : TopicResult :=
  { topic := topic
    keywords := []
    topic_analysis := TopicAnalysis.failed msg
    total_books_found := 0
    verified_books_count := 0
    recommended_books := [] }

/-- Models `process_single_topic(topic)`.  `interrupt = some e` models an
exception `e` escaping the `try` body (the last-resort boundary); `none` is
the normal path, whose three steps absorb their own failures through `env`. -/
def process_single_topic (topic : String) (env : Env)
    (interrupt : Option String) : TopicResult :=
  match interrupt with
  | some e => errorTopicResult topic e
  | none => processBody topic env

/-! ### Helper lemmas about the verifier -/

theorem attachScores_cons_valid (btv : List Book) (s : ScoreInfo)
    (rest : List ScoreInfo) (h : ordinalValid btv s) :
    attachScores btv (s :: rest) =
      mkVerified (btv.get ⟨(s.bookNumberD - 1).toNat, h.2⟩) s ::
        attachScores btv rest := by
  unfold attachScores
  rw [List.filterMap_cons]
  rw [if_pos h.1, List.getElem?_eq_getElem h.2]
  simp [List.get_eq_getElem]

theorem attachScores_cons_invalid (btv : List Book) (s : ScoreInfo)
    (rest : List ScoreInfo) (h : ¬ ordinalValid btv s) :
    attachScores btv (s :: rest) = attachScores btv rest := by
  unfold attachScores
  rw [List.filterMap_cons]
  by_cases h0 : 0 ≤ s.bookNumberD - 1
  · have hlen : btv.length ≤ (s.bookNumberD - 1).toNat := by
      by_contra hcon
      exact h ⟨h0, Nat.lt_of_not_le hcon⟩
    rw [if_pos h0, List.getElem?_eq_none hlen]
    simp
  · rw [if_neg h0]

theorem attachScores_append (btv : List Book) (l₁ l₂ : List ScoreInfo) :
    attachScores btv (l₁ ++ l₂) = attachScores btv l₁ ++ attachScores btv l₂ := by
  unfold attachScores
  rw [List.filterMap_append]

theorem attachScores_nil_left (scores : List ScoreInfo) :
    attachScores [] scores = [] := by
  induction scores with
  | nil => rfl
  | cons s rest ih =>
    rw [attachScores_cons_invalid [] s rest (by simp [ordinalValid]), ih]

theorem mem_attachScores {btv : List Book} {scores : List ScoreInfo}
    {v : VerifiedBook} (hv : v ∈ attachScores btv scores) :
    ∃ s ∈ scores, ∃ b, v = mkVerified b s := by
  unfold attachScores at hv
  rw [List.mem_filterMap] at hv
  obtain ⟨s, hs, hfs⟩ := hv
  refine ⟨s, hs, ?_⟩
  by_cases h0 : 0 ≤ s.bookNumberD - 1
  · rw [if_pos h0] at hfs
    match hbb : btv[(s.bookNumberD - 1).toNat]? with
    | none => rw [hbb] at hfs; simp at hfs
    | some b =>
      rw [hbb] at hfs
      simp only [Option.map_some', Option.some.injEq] at hfs
      exact ⟨b, hfs.symm⟩
  · rw [if_neg h0] at hfs
    simp at hfs

/-- Generic projection lemma: any field of an attached record that is copied
from the score entry agrees, entry by entry, with the valid entries of the
response. -/
theorem attachScores_map {γ : Type} (btv : List Book) (scores : List ScoreInfo)
    (f : VerifiedBook → γ) (g : ScoreInfo → γ)
    (hfg : ∀ b s, f (mkVerified b s) = g s) :
    (attachScores btv scores).map f =
      (scores.filter (fun s => decide (ordinalValid btv s))).map g := by
  induction scores with
  | nil => rfl
  | cons s rest ih =>
    by_cases hv : ordinalValid btv s
    · rw [attachScores_cons_valid btv s rest hv,
        List.filter_cons_of_pos (by simpa), List.map_cons, List.map_cons, ih,
        hfg]
    · rw [attachScores_cons_invalid btv s rest hv,
        List.filter_cons_of_neg (by simpa), ih]

theorem scoreLE_trans (a b c : VerifiedBook) :
    scoreLE a b → scoreLE b c → scoreLE a c := by
  simp only [scoreLE, decide_eq_true_eq]
  omega

theorem scoreLE_total (a b : VerifiedBook) : scoreLE a b || scoreLE b a := by
  simp only [scoreLE, Bool.or_eq_true, decide_eq_true_eq]
  omega

theorem verify_ok_eq (books : List Book) (scores : List ScoreInfo)
    (hb : books.isEmpty = false) :
    verify_books_with_llm books (Except.ok scores) =
      (attachScores (books.take 15) scores).mergeSort scoreLE := by
  unfold verify_books_with_llm
  rw [if_neg (by simp [hb])]

theorem verify_pairwise (books : List Book)
    (resp : Except String (List ScoreInfo)) :
    (verify_books_with_llm books resp).Pairwise
      (fun a b => scoreLE a b = true) := by
  unfold verify_books_with_llm
  by_cases hb : books.isEmpty
  · rw [if_pos hb]
    exact List.Pairwise.nil
  · rw [if_neg hb]
    match resp with
    | Except.error e => exact List.Pairwise.nil
    | Except.ok scores => exact List.sorted_mergeSort scoreLE_trans scoreLE_total _

theorem mkRecommendedBooks_map_total :
    ∀ (i : Nat) (l : List VerifiedBook),
      (mkRecommendedBooks i l).map (fun r => r.total_score) =
        l.map (fun v => v.llm_total_score)
  | _, [] => rfl
  | i, b :: rest => by
    simp [mkRecommendedBooks, mkRecommendedEntry,
      mkRecommendedBooks_map_total (i + 1) rest]

theorem mkRecommendedBooks_length :
    ∀ (i : Nat) (l : List VerifiedBook),
      (mkRecommendedBooks i l).length = l.length
  | _, [] => rfl
  | i, b :: rest => by
    simp [mkRecommendedBooks, mkRecommendedBooks_length (i + 1) rest]

/-! ### Helper lemmas about deduplication -/

theorem dedupAux_extra :
    ∀ (l acc : List Book), ∃ e, dedupAux acc l = acc ++ e ∧ e.Sublist l := by
  intro l
  induction l with
  | nil => intro acc; exact ⟨[], by simp [dedupAux]⟩
  | cons b rest ih =>
    intro acc
    unfold dedupAux
    by_cases hcond : b.isbn ≠ "" ∧ ∀ x ∈ acc, x.isbn ≠ b.isbn
    · rw [if_pos hcond]
      obtain ⟨e, he, hs⟩ := ih (acc ++ [b])
      exact ⟨b :: e, by simp [he], List.Sublist.cons₂ _ hs⟩
    · rw [if_neg hcond]
      obtain ⟨e, he, hs⟩ := ih acc
      exact ⟨e, he, hs.cons b⟩

theorem mem_dedupAux :
    ∀ (l acc : List Book) (b : Book),
      b ∈ dedupAux acc l → b ∈ acc ∨ (b ∈ l ∧ b.isbn ≠ "") := by
  intro l
  induction l with
  | nil => intro acc b hb; simp [dedupAux] at hb; exact Or.inl hb
  | cons hd rest ih =>
    intro acc b hb
    unfold dedupAux at hb
    by_cases hcond : hd.isbn ≠ "" ∧ ∀ x ∈ acc, x.isbn ≠ hd.isbn
    · rw [if_pos hcond] at hb
      rcases ih _ b hb with hacc | ⟨hmem, hne⟩
      · rcases List.mem_append.1 hacc with h1 | h2
        · exact Or.inl h1
        · have hbeq : b = hd := List.mem_singleton.1 h2
          subst hbeq
          exact Or.inr ⟨List.mem_cons_self _ _, hcond.1⟩
      · exact Or.inr ⟨List.mem_cons_of_mem _ hmem, hne⟩
    · rw [if_neg hcond] at hb
      rcases ih _ b hb with h1 | ⟨hmem, hne⟩
      · exact Or.inl h1
      · exact Or.inr ⟨List.mem_cons_of_mem _ hmem, hne⟩

theorem dedupAux_nodup :
    ∀ (l acc : List Book),
      (acc.map (fun b => b.isbn)).Nodup →
      ((dedupAux acc l).map (fun b => b.isbn)).Nodup := by
  intro l
  induction l with
  | nil => intro acc h; simpa [dedupAux]
  | cons hd rest ih =>
    intro acc h
    unfold dedupAux
    by_cases hcond : hd.isbn ≠ "" ∧ ∀ x ∈ acc, x.isbn ≠ hd.isbn
    · rw [if_pos hcond]
      apply ih
      rw [List.map_append]
      apply h.append (by simp)
      intro i hi hi2
      simp only [List.map_cons, List.map_nil, List.mem_singleton] at hi2
      rw [List.mem_map] at hi
      obtain ⟨x, hx, hxe⟩ := hi
      exact hcond.2 x hx (hxe.trans hi2)
    · rw [if_neg hcond]
      exact ih acc h

theorem dedupAux_first :
    ∀ (l acc : List Book) (b : Book),
      b ∈ dedupAux acc l →
      b ∈ acc ∨ ((∀ x ∈ acc, x.isbn ≠ b.isbn) ∧
        l.find? (fun x => x.isbn == b.isbn) = some b) := by
  intro l
  induction l with
  | nil => intro acc b hb; simp [dedupAux] at hb; exact Or.inl hb
  | cons hd rest ih =>
    intro acc b hb
    unfold dedupAux at hb
    by_cases hcond : hd.isbn ≠ "" ∧ ∀ x ∈ acc, x.isbn ≠ hd.isbn
    · rw [if_pos hcond] at hb
      rcases ih _ b hb with hacc | ⟨hfree, hfind⟩
      · rcases List.mem_append.1 hacc with h1 | h2
        · exact Or.inl h1
        · have hbeq : b = hd := List.mem_singleton.1 h2
          subst hbeq
          refine Or.inr ⟨hcond.2, ?_⟩
          rw [List.find?_cons_of_pos _ (by simp)]
      · refine Or.inr ⟨fun x hx => hfree x (List.mem_append_left _ hx), ?_⟩
        have hne : hd.isbn ≠ b.isbn := hfree hd (by simp)
        rw [List.find?_cons_of_neg _ (by simpa)]
        exact hfind
    · rw [if_neg hcond] at hb
      rcases ih _ b hb with h1 | ⟨hfree, hfind⟩
      · exact Or.inl h1
      · refine Or.inr ⟨hfree, ?_⟩
        have hbne : b.isbn ≠ "" := by
          rcases mem_dedupAux rest acc b hb with hacc2 | ⟨_, hne⟩
          · exact absurd rfl (hfree b hacc2)
          · exact hne
        have hne : hd.isbn ≠ b.isbn := by
          push_neg at hcond
          by_cases hhd : hd.isbn = ""
          · rw [hhd]
            exact fun hcontra => hbne hcontra.symm
          · obtain ⟨x, hx, hxe⟩ := hcond hhd
            intro hcontra
            exact hfree x hx (hxe.trans hcontra)
        rw [List.find?_cons_of_neg _ (by simpa)]
        exact hfind

theorem dedupAux_complete :
    ∀ (l acc : List Book) (i : String),
      ((∃ x ∈ acc, x.isbn = i) ∨ (i ≠ "" ∧ ∃ b ∈ l, b.isbn = i)) →
      ∃ c ∈ dedupAux acc l, c.isbn = i := by
  intro l
  induction l with
  | nil =>
    intro acc i h
    rcases h with ⟨x, hx, hxe⟩ | ⟨-, b, hb, -⟩
    · exact ⟨x, by simpa [dedupAux] using hx, hxe⟩
    · exact absurd hb (List.not_mem_nil b)
  | cons hd rest ih =>
    intro acc i h
    unfold dedupAux
    by_cases hcond : hd.isbn ≠ "" ∧ ∀ x ∈ acc, x.isbn ≠ hd.isbn
    · rw [if_pos hcond]
      apply ih
      rcases h with ⟨x, hx, hxe⟩ | ⟨hne, b, hb, hbe⟩
      · exact Or.inl ⟨x, List.mem_append_left _ hx, hxe⟩
      · rcases List.mem_cons.1 hb with hbeq | hbrest
        · subst hbeq
          exact Or.inl ⟨b, by simp, hbe⟩
        · exact Or.inr ⟨hne, b, hbrest, hbe⟩
    · rw [if_neg hcond]
      apply ih
      rcases h with ⟨x, hx, hxe⟩ | ⟨hne, b, hb, hbe⟩
      · exact Or.inl ⟨x, hx, hxe⟩
      · rcases List.mem_cons.1 hb with hbeq | hbrest
        · subst hbeq
          push_neg at hcond
          obtain ⟨x, hx, hxe⟩ := hcond (by rw [hbe]; exact hne)
          exact Or.inl ⟨x, hx, by rw [hxe, hbe]⟩
        · exact Or.inr ⟨hne, b, hbrest, hbe⟩

/-! ### Concrete fixtures for witnesses and counterexamples -/

/-- A concrete candidate with the given title and identifier. -/
def testBookT (i t : String) : Book :=
  { title := t
    author := "a"
    publisher := "p"
    pubdate := "2024"
    isbn := i
    description := "d"
    search_keyword := "k" }

/-- A concrete candidate with the given identifier. -/
def testBook (i : String) : Book := testBookT i "t"

/-- A concrete score entry declaring ordinal `n`, reported total `total` and
relevance sub-score `rel`; the other four sub-scores are 0. -/
def testScore (n total rel : Int) : ScoreInfo :=
  { book_number := some n
    relevance_score := some rel
    appropriateness_score := some 0
    reliability_score := some 0
    recency_score := some 0
    accessibility_score := some 0
    total_score := some total
    recommendation_reason := some "r" }

/-- A concrete candidate list with a duplicated identifier: the first and
second entries share isbn `X`. -/
def dupList : List Book :=
  [testBookT "X" "first", testBookT "X" "second", testBookT "Y" "third"]

/-- A concrete search service that fails on keyword `b` and answers every
other keyword with an empty 200 response. -/
def svcW : String → QueryOutcome := fun kw =>
  if kw = "b" then QueryOutcome.failure else QueryOutcome.response 200 []

/-! ### Claim theorems -/

/-- C9: on a transport or parse failure affecting the verifier's whole batch
call, `verify_books_with_llm` returns the empty sequence; and an empty
candidate list yields the empty sequence for every possible model response —
the result does not depend on `response` at all, which is the shallow form of
"without invoking the model". -/
theorem c9_failure_empty :
    (∀ (response : Except String (List ScoreInfo)),
      verify_books_with_llm [] response = []) ∧
    (∀ (books : List Book) (e : String),
      verify_books_with_llm books (Except.error e) = []) := by
  constructor
  · intro response
    rfl
  · intro books e
    unfold verify_books_with_llm
    by_cases hb : books.isEmpty
    · rw [if_pos hb]
    · rw [if_neg hb]

/-- C5: a score entry whose declared 1-based ordinal lies outside
`[1, len(submitted candidates)]` is discarded (removing it from the response
does not change the verifier's output, so no fault is raised), and the
remaining valid entries are kept and ranked exactly as they would be without
the malformed entry. -/
theorem c5_ordinal_discarded (books : List Book) (pre post : List ScoreInfo)
    (s : ScoreInfo) (h : ¬ ordinalValid (books.take 15) s) :
    verify_books_with_llm books (Except.ok (pre ++ s :: post)) =
      verify_books_with_llm books (Except.ok (pre ++ post)) := by
  by_cases hb : books.isEmpty
  · have hnil : books = [] := List.isEmpty_iff.1 hb
    subst hnil
    rfl
  · have hbf : books.isEmpty = false := by simpa using hb
    have hatt : attachScores (books.take 15) (pre ++ s :: post) =
        attachScores (books.take 15) (pre ++ post) := by
      rw [attachScores_append, attachScores_append,
        attachScores_cons_invalid _ _ _ h]
    rw [verify_ok_eq _ _ hbf, verify_ok_eq _ _ hbf, hatt]

/-- C5 witness: the spec's malformed-ordinal example — 5 submitted
candidates, a response entry declaring `book_number: 7`; the entry is dropped
and the other entries are ranked as if it were absent. -/
theorem c5_ordinal_discarded_witness :
    verify_books_with_llm
        [testBook "A", testBook "B", testBook "C", testBook "D", testBook "E"]
        (Except.ok [testScore 1 80 0, testScore 7 99 0, testScore 2 70 0]) =
      verify_books_with_llm
        [testBook "A", testBook "B", testBook "C", testBook "D", testBook "E"]
        (Except.ok [testScore 1 80 0, testScore 2 70 0]) :=
  c5_ordinal_discarded
    [testBook "A", testBook "B", testBook "C", testBook "D", testBook "E"]
    [testScore 1 80 0] [testScore 2 70 0] (testScore 7 99 0) (by decide)

/-- C6: the search client consults only the first 3 keywords; a keyword whose
query fails contributes zero candidates; and removing a failing keyword from
the consulted list leaves the contributions of all remaining keywords
unchanged — the search continues through them. -/
theorem c6_first_three_keywords :
    (∀ (service : String → QueryOutcome) (keywords : List String),
      search_books_naver service keywords =
        search_books_naver service (keywords.take 3)) ∧
    (∀ (service : String → QueryOutcome) (kw : String),
      service kw = QueryOutcome.failure → keywordBooks service kw = []) ∧
    (∀ (service : String → QueryOutcome) (pre post : List String) (kw : String),
      service kw = QueryOutcome.failure →
        (pre ++ kw :: post).flatMap (keywordBooks service) =
          (pre ++ post).flatMap (keywordBooks service)) := by
  refine ⟨?_, ?_, ?_⟩
  · intro service keywords
    unfold search_books_naver searchRawBooks
    rw [List.take_take]
    simp
  · intro service kw h
    unfold keywordBooks
    rw [h]
  · intro service pre post kw h
    have h0 : keywordBooks service kw = [] := by
      unfold keywordBooks
      rw [h]
    simp [List.flatMap_append, List.flatMap_cons, h0]

/-- C6 witness: with a service that fails on keyword `b`, the contribution of
the consulted list `[a, b, c]` equals that of `[a, c]`. -/
theorem c6_first_three_keywords_witness :
    (["a"] ++ "b" :: ["c"]).flatMap (keywordBooks svcW) =
      (["a"] ++ ["c"]).flatMap (keywordBooks svcW) :=
  c6_first_three_keywords.2.2 svcW ["a"] ["c"] "b" (by decide)

/-- C4: deduplication in the search client.  The merged set is a sublist of
the raw hit sequence (insertion order of first occurrences), its identifiers
are pairwise distinct, every surviving entry has a non-empty identifier and
is the first raw hit carrying that identifier, every non-empty identifier of
the raw sequence survives, and `search_books_naver` is exactly this
deduplication applied to the per-keyword contributions in keyword order. -/
theorem c4_dedup (l : List Book) :
    (dedupByIsbn l).Sublist l ∧
    ((dedupByIsbn l).map (fun b => b.isbn)).Nodup ∧
    (∀ b ∈ dedupByIsbn l,
      b.isbn ≠ "" ∧ l.find? (fun x => x.isbn == b.isbn) = some b) ∧
    (∀ b ∈ l, b.isbn ≠ "" → ∃ c ∈ dedupByIsbn l, c.isbn = b.isbn) ∧
    (∀ (service : String → QueryOutcome) (keywords : List String),
      search_books_naver service keywords =
        dedupByIsbn (searchRawBooks service keywords)) := by
  refine ⟨?_, ?_, ?_, ?_, ?_⟩
  · obtain ⟨e, he, hs⟩ := dedupAux_extra l []
    unfold dedupByIsbn
    rw [he]
    simpa using hs
  · exact dedupAux_nodup l [] (by simp)
  · intro b hb
    constructor
    · rcases mem_dedupAux l [] b hb with hacc | ⟨-, hne⟩
      · exact absurd hacc (List.not_mem_nil b)
      · exact hne
    · rcases dedupAux_first l [] b hb with hacc | ⟨-, hfind⟩
      · exact absurd hacc (List.not_mem_nil b)
      · exact hfind
  · intro b hb hne
    exact dedupAux_complete l [] b.isbn (Or.inr ⟨hne, b, hb, rfl⟩)
  · intro service keywords
    rfl

/-- C4 witness: on a list with two hits sharing isbn `X`, the merged set
keeps the first of them (the `find?` representative) and still contains an
entry for `X`. -/
theorem c4_dedup_witness :
    (∃ c ∈ dedupByIsbn dupList, c.isbn = (testBookT "X" "second").isbn) ∧
    dupList.find? (fun x => x.isbn == (testBookT "X" "first").isbn) =
      some (testBookT "X" "first") :=
  ⟨(c4_dedup dupList).2.2.2.1 (testBookT "X" "second") (by decide) (by decide),
    ((c4_dedup dupList).2.2.1 (testBookT "X" "first") (by decide)).2⟩

/-- C2: for every topic and every behaviour of the external services, the
recommended-books sequence of the assembled TopicResult has length at most 2
and is sorted by total score in descending order. -/
theorem c2_cap_and_sorted (topic : String) (env : Env)
    (interrupt : Option String) :
    (process_single_topic topic env interrupt).recommended_books.length ≤ 2 ∧
    ((process_single_topic topic env interrupt).recommended_books.map
        (fun r => r.total_score)).Pairwise (fun a b => b ≤ a) := by
  match interrupt with
  | some e => simp [process_single_topic, errorTopicResult]
  | none =>
    simp only [process_single_topic, processBody]
    constructor
    · rw [mkRecommendedBooks_length]
      simp [List.length_take]
    · rw [mkRecommendedBooks_map_total, List.pairwise_map]
      apply List.Pairwise.sublist (List.take_sublist 2 _)
      apply (verify_pairwise _ _).imp
      intro a b hab
      simpa [scoreLE] using hab

/-- C3: the per-topic pipeline is total (it never raises).  If the analyzer's
call fails, the non-null sentinel analysis with an empty keyword list is
used, the search over the empty keyword list yields zero candidates, and the
pipeline still returns a well-formed TopicResult with an empty recommendation
list; an exception escaping the try body is converted at the orchestrator
boundary into a TopicResult with zero candidates, an analysis record carrying
the error note, and an empty recommendation list. -/
theorem c3_resilience :
    (∀ (topic e : String) (service : String → QueryOutcome)
        (vresp : Except String (List ScoreInfo)),
      processBody topic ⟨Except.error e, service, vresp⟩ =
        { topic := topic
          keywords := []
          topic_analysis := TopicAnalysis.info sentinelTopicInfo
          total_books_found := 0
          verified_books_count := 0
          recommended_books := [] }) ∧
    (∀ (topic : String) (env : Env) (e : String),
      process_single_topic topic env (some e) =
        { topic := topic
          keywords := []
          topic_analysis := TopicAnalysis.failed e
          total_books_found := 0
          verified_books_count := 0
          recommended_books := [] }) := by
  constructor
  · intro topic e service vresp
    rfl
  · intro topic env e
    rfl

/-- C1 counterexample: the model reports, for the first candidate, sub-scores
summing to 30 but a total of 0, and for the second candidate sub-scores
summing to 0 but a total of 5.  The verifier ranks the second candidate first
— the total used for ranking is the reported `total_score`, not the sum of
the five sub-scores, refuting the claim that the sub-score sum is
authoritative. -/
theorem c1_counterexample :
    ((verify_books_with_llm [testBook "I1", testBook "I2"]
        (Except.ok [testScore 2 5 0, testScore 1 0 30])).map
      (fun v => (v.isbn, v.llm_total_score,
        v.llm_relevance + v.llm_appropriateness + v.llm_reliability +
          v.llm_recency + v.llm_accessibility)) =
      [("I2", 5, 0), ("I1", 0, 30)]) ∧ (0 : Int) ≠ 5 := by
  have hatt : attachScores ([testBook "I1", testBook "I2"].take 15)
      [testScore 2 5 0, testScore 1 0 30] =
      [mkVerified (testBook "I2") (testScore 2 5 0),
        mkVerified (testBook "I1") (testScore 1 0 30)] := by decide
  rw [verify_ok_eq _ _ (by decide), hatt,
    List.mergeSort_of_sorted (by decide)]
  exact ⟨by decide, by decide⟩

/-- C1 amended: for every ScoredCandidate the total used for ranking is the
model-reported `total_score` (0 when the field is absent), copied verbatim
from the matching response entry; it is not recomputed from the sub-scores
and may disagree with their sum. -/
theorem c1_amended (btv : List Book) (scores : List ScoreInfo) :
    (attachScores btv scores).map (fun v => v.llm_total_score) =
      (scores.filter (fun s => decide (ordinalValid btv s))).map
        (fun s => s.totalScoreD) :=
  attachScores_map btv scores _ _ (fun b s => rfl)

/-- C7 counterexample: a response entry reporting `relevance_score = 999`
(outside the documented range [0, 30]) is accepted verbatim: the scored
candidate carries relevance 999 and is neither rejected nor clamped. -/
theorem c7_counterexample :
    ((verify_books_with_llm [testBook "I1"]
        (Except.ok [testScore 1 100 999])).map (fun v => v.llm_relevance) =
      [999]) ∧ ¬ ((999 : Int) ≤ 30) := by
  have hatt : attachScores ([testBook "I1"].take 15) [testScore 1 100 999] =
      [mkVerified (testBook "I1") (testScore 1 100 999)] := by decide
  rw [verify_ok_eq _ _ (by decide), hatt, List.mergeSort_singleton]
  exact ⟨by decide, by decide⟩

/-- C7 amended: each sub-score of a ScoredCandidate is copied verbatim from
the matching response entry (0 when the field is absent); no range check or
clamping is applied anywhere, so out-of-range sub-scores are silently
accepted. -/
theorem c7_amended (btv : List Book) (scores : List ScoreInfo) :
    (attachScores btv scores).map
        (fun v => (v.llm_relevance, v.llm_appropriateness, v.llm_reliability,
          v.llm_recency, v.llm_accessibility)) =
      (scores.filter (fun s => decide (ordinalValid btv s))).map
        (fun s => (s.relevanceD, s.appropriatenessD, s.reliabilityD,
          s.recencyD, s.accessibilityD)) :=
  attachScores_map btv scores _ _ (fun b s => rfl)

/-- C8 counterexample: two candidates are submitted in the order I1, I2; the
model's response lists the entry for I2 before the entry for I1, with equal
total scores.  The ranked output keeps the response order I2, I1 — not the
original candidate order — refuting the claim that ties appear in submitted
candidate order. -/
theorem c8_counterexample :
    (verify_books_with_llm [testBook "I1", testBook "I2"]
        (Except.ok [testScore 2 50 0, testScore 1 50 0])).map
      (fun v => (v.isbn, v.llm_total_score)) = [("I2", 50), ("I1", 50)] := by
  have hatt : attachScores ([testBook "I1", testBook "I2"].take 15)
      [testScore 2 50 0, testScore 1 50 0] =
      [mkVerified (testBook "I2") (testScore 2 50 0),
        mkVerified (testBook "I1") (testScore 1 50 0)] := by decide
  rw [verify_ok_eq _ _ (by decide), hatt,
    List.mergeSort_of_sorted (by decide)]
  decide

/-- C8 amended: the descending sort is stable with respect to the order of
the score entries in the model's response, not the submitted candidate
order: in any response, whenever two scored candidates with equal total
score appear with `v` before `w` in the attached (response-order) sequence,
`v` still precedes `w` in the ranked output. -/
theorem c8_amended (books : List Book) (scores : List ScoreInfo)
    (v w : VerifiedBook)
    (hvw : [v, w].Sublist (attachScores (books.take 15) scores))
    (heq : v.llm_total_score = w.llm_total_score)
    (hb : books.isEmpty = false) :
    [v, w].Sublist (verify_books_with_llm books (Except.ok scores)) := by
  rw [verify_ok_eq _ _ hb]
  exact List.pair_sublist_mergeSort scoreLE_trans scoreLE_total
    (by simp [scoreLE, heq]) hvw

/-- C8 amended witness: in a mixed-total response (totals 90, 50, 50), the
two candidates tied at 50 keep their response-entry order in the ranked
output. -/
theorem c8_amended_witness :
    [mkVerified (testBook "I2") (testScore 2 50 0),
      mkVerified (testBook "I1") (testScore 1 50 0)].Sublist
      (verify_books_with_llm [testBook "I1", testBook "I2"]
        (Except.ok [testScore 1 90 0, testScore 2 50 0, testScore 1 50 0])) :=
  c8_amended [testBook "I1", testBook "I2"]
    [testScore 1 90 0, testScore 2 50 0, testScore 1 50 0]
    (mkVerified (testBook "I2") (testScore 2 50 0))
    (mkVerified (testBook "I1") (testScore 1 50 0))
    (by decide) (by decide) (by decide)

/-- C10: when the response contains two entries declaring the same valid
`book_number`, each entry yields its own ScoredCandidate for the same
underlying book: the ranked output contains the identifier I1 twice, so
identifier uniqueness is not preserved through verification. -/
theorem c10_duplicate_ordinals :
    ((verify_books_with_llm [testBook "I1"]
        (Except.ok [testScore 1 90 0, testScore 1 80 0])).map
      (fun v => v.isbn) = ["I1", "I1"]) ∧
    ¬ ((verify_books_with_llm [testBook "I1"]
        (Except.ok [testScore 1 90 0, testScore 1 80 0])).map
      (fun v => v.isbn)).Nodup ∧
    (verify_books_with_llm [testBook "I1"]
        (Except.ok [testScore 1 90 0, testScore 1 80 0])).length = 2 := by
  have hatt : attachScores ([testBook "I1"].take 15)
      [testScore 1 90 0, testScore 1 80 0] =
      [mkVerified (testBook "I1") (testScore 1 90 0),
        mkVerified (testBook "I1") (testScore 1 80 0)] := by decide
  rw [verify_ok_eq _ _ (by decide), hatt,
    List.mergeSort_of_sorted (by decide)]
  refine ⟨by decide, by decide, by decide⟩

end HakzzongBook
